import Mathlib

/-!
Verification of the goshared task-execution service (Go) against its
natural-language specification, via a shallow embedding of the in-scope
components: the Response/Task data model, the worker (`thread`), the worker
pool (`ExecutorPool`), the response-conduit arbiter (`responseChannels`),
the retry-broadcast primitive (`CondVar`), task statistics (`TaskStats`),
and the sequential submission path of the `Dispatcher`.

Conventions of the embedding:
- Go `int` is modelled as `Int`; array/slice indices and lengths as `Nat`.
- A Go buffered channel is modelled as `GoChan`: its buffered contents as a
  list plus a closed flag.  `close` of a closed (or nil) channel is a Go
  runtime panic, modelled with `Except String`.
- Mutex-protected sections are modelled as atomic pure state transitions;
  each exported operation is a function from state to state (plus results).
- Goroutines (the worker consumer loop, conduit readers, the housekeeper,
  the retry-broadcast helper) are modelled by their per-iteration step
  functions; parking on a channel/condition is represented explicitly in
  the return type where a claim depends on it.
-/

namespace Goshared

/-! ## Response and task status codes (src/executor test-util/part_004) -/

def TaskStatusNotSubmitted : Int := 0
def TaskStatusFailedToSubmit : Int := 1
def TaskStatusSubmitted : Int := 100
def TaskStatusCompletedSuccessfully : Int := 200
def TaskStatusCompletedFailed : Int := 500

/-- Response struct: task id, status, result payload, error descriptors
(Go `[]error` modelled as the list of their messages). -/
structure Response where
  TaskId : Int
  Status : Int
  Result : String
  Errors : List String
deriving DecidableEq, Repr

/-- Zero value of the Go `Response` struct (what a map miss returns). -/
def Response.zero : Response := ⟨0, 0, "", []⟩

/-- NewResponse: fresh response for a task id, all other fields zero. -/
def NewResponse (tid : Int) : Response :=
  { Response.zero with TaskId := tid }

/-- FailedToSubmitResponse: NewResponse with status failed-to-submit. -/
def FailedToSubmitResponse (tid : Int) : Response :=
  { NewResponse tid with Status := TaskStatusFailedToSubmit }

/-! ## Task (src/executor task.go interface)

A task carries a stable id, a blocking flag, the response-channel handle the
dispatcher assigns (channel handles are modelled by their index in the
conduit set; `none` is a nil channel), and its opaque execute operation,
abstracted by the `Response` that `Execute()` returns. -/

structure Task where
  id : Int
  blocking : Bool
  respChan : Option Nat
  executeResp : Response
deriving DecidableEq, Repr

def Task.GetId (t : Task) : Int := t.id

def Task.IsBlocking (t : Task) : Bool := t.blocking

def Task.GetRespChan (t : Task) : Option Nat := t.respChan

def Task.SetRespChan (t : Task) (rc : Nat) : Task := { t with respChan := some rc }

def Task.Execute (t : Task) : Response := t.executeResp

/-! ## Go channel model -/

/-- Buffered Go channel: buffered elements plus a closed flag. -/
structure GoChan (α : Type) where
  buf : List α
  closed : Bool
deriving DecidableEq, Repr

/-- Message of the Go runtime panic raised by closing a closed channel. -/
def panicCloseOfClosed : String := "close of closed channel"

/-- Message of the Go runtime panic raised by closing a nil channel. -/
def panicCloseOfNil : String := "close of nil channel"

/-- Go `close(ch)`: panics on a nil or already-closed channel. -/
def goClose {α : Type} (c : Option (GoChan α)) : Except String (GoChan α) :=
  match c with
  | none => .error panicCloseOfNil
  | some ch => if ch.closed then .error panicCloseOfClosed
               else .ok { ch with closed := true }

/-! ## CondVar, the retry-broadcast primitive (src/util/cond-var.go)

`howManyLeft` is the count of outstanding receipts ("pendingReceipts" in the
spec).  `Wait` decrements it after waking; `Broadcast r` refuses while
receipts are outstanding, else sets it to `r` and spawns the helper loop
modelled below by its guard. -/

structure CondVar where
  gapInterval : Int
  durationLimit : Int
  howManyLeft : Int
deriving DecidableEq, Repr

def NewCondVar (gi dl : Int) : CondVar :=
  { gapInterval := gi, durationLimit := dl, howManyLeft := 0 }

/-- Error message of a Broadcast issued while receipts are outstanding. -/
def errMsgBdIncomplete : String := "earlier broadcast not complete"

/-- CondVar.Broadcast: fail if `howManyLeft > 0`, else set it to `r`
(and spawn the helper goroutine, modelled separately). -/
def CondVar.Broadcast (cv : CondVar) (r : Int) : Option String × CondVar :=
  if cv.howManyLeft > 0 then (some errMsgBdIncomplete, cv)
  else (none, { cv with howManyLeft := r })

/-- CondVar.Signal is literally `Broadcast(1)`. -/
def CondVar.Signal (cv : CondVar) : Option String × CondVar :=
  cv.Broadcast 1

/-- CondVar.Wait: after waking from the condition, decrement `howManyLeft`. -/
def CondVar.Wait (cv : CondVar) : CondVar :=
  { cv with howManyLeft := cv.howManyLeft - 1 }

/-- Loop guard of the helper spawned by `Broadcast` (function `broadcast` in
cond-var.go): continue while `cv.howManyLeft > 0` and
`time.Now().Nanosecond() < start + durationLimit*1000`.  `start` and `now`
are readings of `time.Now().Nanosecond()`, the nanosecond offset within the
current second, hence always in `[0, 10^9)`. -/
def broadcastLoopGuard (howManyLeft : Int) (start dl now : Nat) : Bool :=
  howManyLeft > 0 && now < start + dl * 1000

/-- One second in nanoseconds: `time.Now().Nanosecond()` readings are below
this bound. -/
def nanosPerSecond : Nat := 1000000000

/-- Run of the helper loop over a sequence of successive clock readings with
no waiter present (so `howManyLeft` stays constant): the helper has exited
by the end of the readings iff some reading falsified the guard. -/
def broadcastHelperExits (howManyLeft : Int) (start dl : Nat)
    (reads : List Nat) : Bool :=
  reads.any fun now => !broadcastLoopGuard howManyLeft start dl now

/-! ## TaskStats (src/executor test-util/part_004) -/

structure TaskStats where
  TotalTasksSubmitted : Int
  BlockingTasksSubmitted : Int
  AsyncTasksSubmitted : Int
  TasksInExecution : Int
deriving DecidableEq, Repr

/-- newTaskStats: all counters zero. -/
def newTaskStats : TaskStats := ⟨0, 0, 0, 0⟩

/-- taskSubmitted: bump blocking or async, then total and in-execution. -/
def TaskStats.taskSubmitted (ts : TaskStats) (blocking : Bool) : TaskStats :=
  let ts1 := if blocking
    then { ts with BlockingTasksSubmitted := ts.BlockingTasksSubmitted + 1 }
    else { ts with AsyncTasksSubmitted := ts.AsyncTasksSubmitted + 1 }
  { ts1 with TotalTasksSubmitted := ts1.TotalTasksSubmitted + 1,
             TasksInExecution := ts1.TasksInExecution + 1 }

/-- taskDone: decrement in-execution only (the argument is unused in Go). -/
def TaskStats.taskDone (ts : TaskStats) (_blocking : Bool) : TaskStats :=
  { ts with TasksInExecution := ts.TasksInExecution - 1 }

/-- A call history against a TaskStats value. -/
inductive StatsOp where
  | submitted (blocking : Bool)
  | done (blocking : Bool)
deriving DecidableEq, Repr

def TaskStats.runOps (ts : TaskStats) (ops : List StatsOp) : TaskStats :=
  ops.foldl (fun s op => match op with
    | .submitted b => s.taskSubmitted b
    | .done b => s.taskDone b) ts

/-! ## Worker (`thread`, src executor.go / part_004 lines 250-343)

State of one worker.  `taskQueue = none` models the nil channel before
`Start` allocates it.  The consumer goroutine is modelled by its
per-iteration step `thread.runStep` below. -/

structure thread where
  continueRun : Bool
  taskQueue : Option (GoChan Task)
  queueCapacity : Nat
  waitForAvailability : Bool
deriving DecidableEq, Repr

/-- Executor configuration (ExecCfg). -/
structure ExecCfg where
  TaskQueueCapacity : Nat
  WaitForAvailability : Bool
deriving DecidableEq, Repr

/-- NewExecutor: `continueRun` false, queue channel not yet allocated. -/
def NewExecutor (cfg : ExecCfg) : thread :=
  { continueRun := false, taskQueue := none,
    queueCapacity := cfg.TaskQueueCapacity,
    waitForAvailability := cfg.WaitForAvailability }

/-- thread.Start: allocate the intake channel, set the running flag (the
spawned consumer loop is modelled by `thread.runStep`). -/
def thread.Start (t : thread) : thread :=
  { t with taskQueue := some ⟨[], false⟩, continueRun := true }

/-- thread.HowManyInQueue: `len(t.taskQueue)`; `len` of a nil channel is 0. -/
def thread.HowManyInQueue (t : thread) : Nat :=
  match t.taskQueue with
  | none => 0
  | some ch => ch.buf.length

/-- thread.IsRunning. -/
def thread.IsRunning (t : thread) : Bool := t.continueRun

/-- thread.WaitForAvailability setter. -/
def thread.WaitForAvailability (t : thread) (wfa : Bool) : thread :=
  { t with waitForAvailability := wfa }

/-- Error message returned by Submit on a stopped/unstarted worker. -/
def errNotStarted : String := "executor is not started"

/-- Error message returned by Submit on a full queue without wait. -/
def errQueueFull : String :=
  "cannot submit, executor already has accepted maximum number of tasks"

/-- Append a task to the worker's intake channel buffer.  This models the
completion of the channel send `t.taskQueue <- tsk`; under
`waitForAvailability` a send on a full buffer blocks until the consumer
makes room, and the completed send is what this function records.  A send
on a nil channel blocks forever; that state is unreachable through the API
(Start allocates the channel before setting `continueRun`), and the
identity result for it is never exercised by the theorems below. -/
def thread.enqueue (t : thread) (tsk : Task) : thread :=
  match t.taskQueue with
  | none => t
  | some ch => { t with taskQueue := some { ch with buf := ch.buf ++ [tsk] } }

/-- thread.Submit: refuse when not running; with wait, send (blocking until
space); without wait, under the mutex send only if the queue is below
capacity, else fail with the queue-full error. -/
def thread.Submit (t : thread) (tsk : Task) : Option String × thread :=
  if !t.continueRun then (some errNotStarted, t)
  else if t.waitForAvailability then (none, t.enqueue tsk)
  else if t.HowManyInQueue < t.queueCapacity then (none, t.enqueue tsk)
  else (some errQueueFull, t)

/-- thread.Stop: clear the running flag, then `close` the intake channel
(a second Stop therefore closes a closed channel, a Go runtime panic). -/
def thread.Stop (t : thread) : Except String thread :=
  let t1 := { t with continueRun := false }
  (goClose t1.taskQueue).map fun ch => { t1 with taskQueue := some ch }

/-- Log message printed by the consumer loop for a task with a nil response
channel (the `%d` of the Go format string rendered from the task id). -/
def noRespChanLogMsg (tid : Int) : String :=
  "Tasks " ++ toString tid ++ " has no channel to report back response."

/-- One iteration of the consumer loop `thread.run` on a dequeued (non-nil)
task: with a nil response channel, log and publish nothing; otherwise
execute, overwrite the response's TaskId with the task's id, and publish
that response on the task's channel.  Returns the log lines emitted and the
publication (channel handle paired with the response), if any. -/
def thread.runStep (tsk : Task) : List String × Option (Nat × Response) :=
  match tsk.GetRespChan with
  | none => ([noRespChanLogMsg tsk.GetId], none)
  | some rspChan =>
      let resp := tsk.Execute
      let resp2 := { resp with TaskId := tsk.GetId }
      ([], some (rspChan, resp2))

/-! ## ExecutorPool (src/executor/executorpool.go) -/

structure ExecutorPool where
  asyncExecutors : List thread
  blockingExecutors : List thread
deriving DecidableEq, Repr

structure ExecPoolCfg where
  AsyncTaskExecutorCount : Nat
  BlockingTaskExecutorCount : Nat
deriving DecidableEq, Repr

def NewExecutorPool (epCfg : ExecPoolCfg) (cfg : ExecCfg) : ExecutorPool :=
  { asyncExecutors := List.replicate epCfg.AsyncTaskExecutorCount (NewExecutor cfg),
    blockingExecutors := List.replicate epCfg.BlockingTaskExecutorCount (NewExecutor cfg) }

/-- Index-selection scan of ExecutorPool.Submit, on the queue lengths of
one executor array.  Faithful to the Go loop: `index := 0`,
`minEs := qs[0]`, and for `i` from 1 upward,
`if qs[i] < minEs { index = i }` — note that the loop never updates
`minEs` itself.  The recursion walks the remaining elements paired with
their index `i`. -/
def submitScan (minEs index i : Nat) : List Nat → Nat
  | [] => index
  | q :: rest => submitScan minEs (if q < minEs then i else index) (i + 1) rest

/-- Index chosen by ExecutorPool.Submit among one executor array with queue
lengths `qs` (Go panics on an empty array; `headD` keeps the model total,
and the theorems only use nonempty pools). -/
def ExecutorPool.chooseIndex (qs : List Nat) : Nat :=
  submitScan (qs.headD 0) 0 1 qs.tail

/-- ExecutorPool.Submit: consult `tsk.IsBlocking()`, run the selection scan
over the matching array, and delegate to the executor at the chosen index. -/
def ExecutorPool.Submit (es : ExecutorPool) (tsk : Task) :
    Option String × ExecutorPool :=
  if tsk.IsBlocking then
    let index := ExecutorPool.chooseIndex (es.blockingExecutors.map thread.HowManyInQueue)
    match es.blockingExecutors.get? index with
    | none => (none, es)
    | some ex =>
        let (err, ex2) := ex.Submit tsk
        (err, { es with blockingExecutors := es.blockingExecutors.set index ex2 })
  else
    let index := ExecutorPool.chooseIndex (es.asyncExecutors.map thread.HowManyInQueue)
    match es.asyncExecutors.get? index with
    | none => (none, es)
    | some ex =>
        let (err, ex2) := ex.Submit tsk
        (err, { es with asyncExecutors := es.asyncExecutors.set index ex2 })

/-- ExecutorPool.HowManyInQueue: total queued over both arrays. -/
def ExecutorPool.HowManyInQueue (es : ExecutorPool) : Nat :=
  (es.asyncExecutors.map thread.HowManyInQueue).sum
    + (es.blockingExecutors.map thread.HowManyInQueue).sum

/-- ExecutorPool.TotalExecutorCount. -/
def ExecutorPool.TotalExecutorCount (es : ExecutorPool) : Nat :=
  es.asyncExecutors.length + es.blockingExecutors.length

/-! ## Response Conduit Set (`responseChannels`, part_004 lines 356-553)

State of the arbiter.  `tasksWaitingOnChn` is the per-conduit in-flight
counter array, `firstAvailable` the advertised index (−1 when none),
`chanCap` the shared buffer capacity `cap(responseChannels[0])`,
`chanAvail` the util.CondVar signalled by `markAvailable`, and
`chansClosed` the shared closed state of the response channels (they are
only ever closed together, by `stop`). -/

structure responseChannels where
  tasksWaitingOnChn : List Int
  firstAvailable : Int
  channelCount : Nat
  chanCap : Int
  chanAvail : CondVar
  waitForChannel : Bool
  continueRun : Bool
  chansClosed : Bool
deriving DecidableEq, Repr

/-- newRC: `cc` conduits of capacity `cp`, counters zero, index 0
advertised, condition variable `NewCondVar(10, 100)`. -/
def newRC (cc : Nat) (cp : Int) (wfc : Bool) : responseChannels :=
  { tasksWaitingOnChn := List.replicate cc 0,
    firstAvailable := 0,
    channelCount := cc,
    chanCap := cp,
    chanAvail := NewCondVar 10 100,
    waitForChannel := wfc,
    continueRun := false,
    chansClosed := false }

/-- responseChannels.next: wrap-around successor index. -/
def responseChannels.nextIdx (cc : Nat) (i : Nat) : Nat :=
  let j := i + 1
  if j = cc then 0 else j

/-- Scan loop of pickFromAvailChannels, faithful to the Go loop
`for !found && i != rc.firstAvailable` (within the mutex section
`rc.firstAvailable` still holds the caller's `avl`).  On `nt == 0` the Go
code sets `found` and still advances `i` once before the guard exits; on
`0 < nt < cap` with `nt < min` it records the new minimum.  Returns
`(found, final i, minIndex)`.  The loop performs at most `cc − 1`
iterations, so fuel `cc` never runs out when `cc ≥ 1`. -/
def pickScan (w : List Int) (cap : Int) (cc avl : Nat) :
    Nat → Int → Nat → Nat → Bool × Nat × Nat
  | _, _, minIndex, 0 => (false, avl, minIndex)
  | i, mn, minIndex, fuel + 1 =>
    if i = avl then (false, i, minIndex)
    else
      let nt := w.getD i 0
      if nt = 0 then (true, responseChannels.nextIdx cc i, minIndex)
      else if nt < cap ∧ nt < mn then
        pickScan w cap cc avl (responseChannels.nextIdx cc i) nt i fuel
      else
        pickScan w cap cc avl (responseChannels.nextIdx cc i) mn minIndex fuel

/-- pickFromAvailChannels: take conduit `avlIndex`, scan forward for the
next index to advertise (−1 if the scan wrapped without finding one), and
increment `tasksWaitingOnChn[avlIndex]`. -/
def responseChannels.pickFromAvailChannels (rc : responseChannels)
    (avlIndex : Nat) : responseChannels :=
  let i0 := responseChannels.nextIdx rc.channelCount avlIndex
  let scan := pickScan rc.tasksWaitingOnChn rc.chanCap rc.channelCount avlIndex
    i0 (rc.tasksWaitingOnChn.getD i0 0) i0 rc.channelCount
  let found := scan.1
  let iFinal := scan.2.1
  let minIndex := scan.2.2
  let fa : Int := if iFinal = avlIndex ∧ found = false then -1 else (minIndex : Int)
  { rc with
    firstAvailable := fa,
    tasksWaitingOnChn :=
      rc.tasksWaitingOnChn.set avlIndex (rc.tasksWaitingOnChn.getD avlIndex 0 + 1) }

/-- markAvailable: decrement `tasksWaitingOnChn[ai]` unless it is already 0
(then only a defect is logged); re-advertise `ai` if nothing was
advertised; signal the condition variable (its error result is discarded
in Go). -/
def responseChannels.markAvailable (rc : responseChannels) (ai : Nat) :
    responseChannels :=
  let w := rc.tasksWaitingOnChn
  let w2 := if w.getD ai 0 > 0 then w.set ai (w.getD ai 0 - 1) else w
  let fa := if rc.firstAvailable = -1 then (ai : Int) else rc.firstAvailable
  let cv := (rc.chanAvail.Signal).2
  { rc with tasksWaitingOnChn := w2, firstAvailable := fa, chanAvail := cv }

/-- Outcome of nextAvailChanIndex: a reserved conduit index with the new
arbiter state, an immediate refusal (`exhausted`, when nothing is
advertised and `waitForChannel` is off), or parking on the condition
variable until a concurrent `markAvailable` re-advertises a conduit
(`parked`; the resumed call then performs the same pick at a state with
`firstAvailable ≥ 0`, which the `reserve` transition below covers). -/
inductive ReserveOutcome where
  | got (i : Nat) (rc : responseChannels)
  | exhausted
  | parked
deriving DecidableEq, Repr

/-- nextAvailChanIndex: read `firstAvailable`; if ≥ 0 pick from it,
otherwise refuse or park according to `waitForChannel`. -/
def responseChannels.nextAvailChanIndex (rc : responseChannels) :
    ReserveOutcome :=
  if rc.firstAvailable > -1 then
    .got rc.firstAvailable.toNat (rc.pickFromAvailChannels rc.firstAvailable.toNat)
  else if rc.waitForChannel then .parked
  else .exhausted

/-- responseChannels.start: set the running flag (the per-conduit reader
goroutines are outside the sequential model). -/
def responseChannels.start (rc : responseChannels) : responseChannels :=
  { rc with continueRun := true }

/-- responseChannels.stop: clear the running flag, then close every
response channel — with at least one conduit, a second stop closes an
already-closed channel, a Go runtime panic. -/
def responseChannels.stop (rc : responseChannels) :
    Except String responseChannels :=
  let rc1 := { rc with continueRun := false }
  if rc.channelCount = 0 then .ok rc1
  else if rc.chansClosed then .error panicCloseOfClosed
  else .ok { rc1 with chansClosed := true }

/-- Trace alphabet of the arbiter: a reserve attempt
(nextAvailChanIndex / pickFromAvailChannels) or a release
(markAvailable of conduit `i`). -/
inductive RCOp where
  | reserve
  | markAvail (i : Nat)
deriving DecidableEq, Repr

/-- One trace step.  A reserve attempt changes the state exactly when a
conduit is advertised (`firstAvailable ≥ 0`); with `firstAvailable = −1`
the non-waiting call returns empty-handed and the waiting call parks, in
both cases leaving the state unchanged. -/
def responseChannels.step (rc : responseChannels) : RCOp → responseChannels
  | .reserve =>
      if rc.firstAvailable > -1
      then rc.pickFromAvailChannels rc.firstAvailable.toNat
      else rc
  | .markAvail i => rc.markAvailable i

/-- Run a trace of arbiter operations from a state. -/
def responseChannels.run (rc : responseChannels) (ops : List RCOp) :
    responseChannels :=
  ops.foldl responseChannels.step rc

/-! ## Dispatcher (part_002) -/

/-- Waiter record.  In Go the registry map stores a *copy* of the record
struct; the housekeeper goroutine and `submitTask` hold a pointer to the
original heap record, and the conduit readers work on map copies.  The
`cond` pointer is shared by all copies; its state is modelled inside the
record value and is identical in all copies until one of them is changed. -/
structure waitingTask where
  cond : CondVar
  responseReceived : Bool
  taskResponse : Response
  blocking : Bool
deriving DecidableEq, Repr

/-- Go map insert (overwrite) on the waiter registry. -/
def mapInsert (m : List (Int × waitingTask)) (k : Int) (v : waitingTask) :
    List (Int × waitingTask) :=
  m.filter (fun p => p.1 ≠ k) ++ [(k, v)]

/-- Go map lookup on the waiter registry (`none` for a missing key; the Go
read would yield the zero record). -/
def mapLookup (m : List (Int × waitingTask)) (k : Int) : Option waitingTask :=
  (m.find? (fun p => p.1 = k)).map Prod.snd

/-- Go map delete on the waiter registry. -/
def mapDelete (m : List (Int × waitingTask)) (k : Int) :
    List (Int × waitingTask) :=
  m.filter (fun p => p.1 ≠ k)

structure DispatcherCfg where
  ChannelCount : Nat
  ChannelCapacity : Int
  WaitForChanAvail : Bool
deriving DecidableEq, Repr

structure Dispatcher where
  execPool : ExecutorPool
  respChans : responseChannels
  chanCount : Nat
  waitForChan : Bool
  waitingTasks : List (Int × waitingTask)
  JobStats : TaskStats
deriving DecidableEq, Repr

def NewDispatcher (cfg : DispatcherCfg) (ep : ExecutorPool) : Dispatcher :=
  { execPool := ep,
    respChans := newRC cfg.ChannelCount cfg.ChannelCapacity cfg.WaitForChanAvail,
    chanCount := cfg.ChannelCount,
    waitForChan := cfg.WaitForChanAvail,
    waitingTasks := [],
    JobStats := newTaskStats }

/-- addNewWaitingTask: build the fresh record (CondVar(10, 100), nothing
received), store a copy in the registry, and spawn the housekeeper
goroutine (modelled by `housekeeperGuard` / `housekeeperTeardown`).
Returns the local record alongside the updated dispatcher, as the Go
function returns the pointer to the heap record. -/
def addNewWaitingTask (disp : Dispatcher) (tsk : Task) :
    waitingTask × Dispatcher :=
  let r : waitingTask :=
    { cond := NewCondVar 10 100,
      responseReceived := false,
      taskResponse := Response.zero,
      blocking := tsk.IsBlocking }
  (r, { disp with waitingTasks := mapInsert disp.waitingTasks tsk.GetId r })

/-- Loop guard of the housekeeper goroutine: it proceeds past
`for !wt.responseReceived` only once the record it observes has
`responseReceived` set (and it re-observes the record only after a wake of
the record's CondVar). -/
def housekeeperGuard (wt : waitingTask) : Bool := wt.responseReceived

/-- Teardown the housekeeper performs after its guard passes: delete the
registry entry, release the conduit slot, count the task done. -/
def housekeeperTeardown (disp : Dispatcher) (tid : Int) (chanIndex : Nat)
    (blocking : Bool) : Dispatcher :=
  { disp with
    waitingTasks := mapDelete disp.waitingTasks tid,
    respChans := disp.respChans.markAvailable chanIndex,
    JobStats := disp.JobStats.taskDone blocking }

/-- Dispatcher.Submit error message for a nil task. -/
def errInvalidTask : String := "invalid task"

/-- Dispatcher error message when no conduit can be reserved. -/
def errNoChanAvailable : String := "cannot submit, no channel available"

/-- Outcome of a dispatcher submission: a return to the caller, parking on
the conduit-availability condition (conduits exhausted with
`waitForChanAvail`), or parking on the record's retry-broadcast primitive
(blocking task successfully handed to the pool; the return value is
produced only after the response arrives). -/
inductive SubmitOutcome where
  | ret (err : Option String) (resp : Option Response) (disp : Dispatcher)
  | parkedOnChanAvail (disp : Dispatcher)
  | parkedOnResponse (disp : Dispatcher)
deriving DecidableEq, Repr

/-- Dispatcher.submitTask: reserve a conduit (else fail or park), assign it
to the task, register the waiter, hand the task to the pool.  On a pool
error the synthetic failed-to-submit response is written into the *local*
record only — the registry copy is untouched and no broadcast is issued —
and the pool's error is returned.  On success an async submission returns
immediately and a blocking one parks on the record's primitive. -/
def Dispatcher.submitTask (disp : Dispatcher) (tsk : Task) : SubmitOutcome :=
  match disp.respChans.nextAvailChanIndex with
  | .got i rc2 =>
      let tsk2 := tsk.SetRespChan i
      let (nwt, disp1) := addNewWaitingTask { disp with respChans := rc2 } tsk2
      let (err, pool2) := disp1.execPool.Submit tsk2
      let disp2 := { disp1 with execPool := pool2 }
      match err with
      | some e =>
          let _nwtLocal := { nwt with taskResponse := FailedToSubmitResponse tsk2.GetId }
          .ret (some e) none disp2
      | none =>
          if tsk2.IsBlocking then .parkedOnResponse disp2
          else .ret none none disp2
  | .parked => .parkedOnChanAvail disp
  | .exhausted => .ret (some errNoChanAvailable) none disp

/-- Dispatcher.Submit: refuse a nil task, else submit and count the
submission when no error was returned (for a parked blocking submission
the count happens after the caller wakes, outside this step). -/
def Dispatcher.Submit (disp : Dispatcher) (tsk : Option Task) : SubmitOutcome :=
  match tsk with
  | none => .ret (some errInvalidTask) none disp
  | some t =>
      match disp.submitTask t with
      | .ret none resp d =>
          .ret none resp { d with JobStats := d.JobStats.taskSubmitted t.IsBlocking }
      | other => other

/-! ## Concrete states used by the claim theorems -/

/-- A task used only to fill worker queues to a prescribed length. -/
def fillerTask : Task := { id := 0, blocking := true, respChan := none, executeResp := Response.zero }

/-- A running worker whose intake queue currently holds `n` tasks. -/
def threadWithQueue (n : Nat) : thread :=
  { continueRun := true, taskQueue := some ⟨List.replicate n fillerTask, false⟩,
    queueCapacity := 10, waitForAvailability := true }

/-- Pool whose three blocking workers have queue lengths 5, 3 and 4. -/
def poolQueues534 : ExecutorPool :=
  { asyncExecutors := [], blockingExecutors := [threadWithQueue 5, threadWithQueue 3, threadWithQueue 4] }

/-- A blocking task with id 42 (no conduit assigned yet). -/
def blockingTask42 : Task := { id := 42, blocking := true, respChan := none, executeResp := Response.zero }

/-! ## Claim theorems -/

/-- C2: `ExecutorPool.Submit` is specified to delegate to the worker of the
matching array whose `HowManyInQueue()` is smallest (ties to the lowest
index).  The Go scan initializes `minEs := qs[0]` but never updates it
inside the loop, so on blocking queue lengths `[5, 3, 4]` it chooses index
2 (load 4) even though index 1 has the strictly smaller load 3, and
`Submit` of a blocking task enqueues on worker 2 — the queue lengths
become `[5, 3, 5]`.  This evaluates the code at the failing input of the
claim. -/
theorem executorPool_submit_not_least_loaded :
    ExecutorPool.chooseIndex [5, 3, 4] = 2 ∧
    List.getD [5, 3, 4] 1 0 < List.getD [5, 3, 4] (ExecutorPool.chooseIndex [5, 3, 4]) 0 ∧
    ((poolQueues534.Submit blockingTask42).2.blockingExecutors.map thread.HowManyInQueue)
      = [5, 3, 5] := by
  refine ⟨rfl, by decide, rfl⟩

/-- C4: one iteration of the worker consumer loop on a dequeued task: with
a nil response channel it only logs and publishes nothing; with an
assigned channel it executes the task, overwrites the response's TaskId
with the task's own id, and publishes exactly that response on the
assigned channel — hence every publication carries the id of the task
just executed. -/
theorem worker_publishes_own_task_id (tsk : Task) :
    (tsk.GetRespChan = none → thread.runStep tsk = ([noRespChanLogMsg tsk.GetId], none)) ∧
    (∀ c, tsk.GetRespChan = some c →
      thread.runStep tsk = ([], some (c, { tsk.Execute with TaskId := tsk.GetId }))) ∧
    (∀ c r, (thread.runStep tsk).2 = some (c, r) →
      r.TaskId = tsk.GetId ∧ tsk.GetRespChan = some c) := by
  refine ⟨fun h => ?_, fun c h => ?_, fun c r h => ?_⟩
  · simp [thread.runStep, h]
  · simp [thread.runStep, h]
  · unfold thread.runStep at h
    cases hg : tsk.GetRespChan with
    | none => rw [hg] at h; simp at h
    | some c0 =>
        rw [hg] at h
        simp only [Option.some.injEq, Prod.mk.injEq] at h
        obtain ⟨hc, hr⟩ := h
        constructor
        · rw [← hr]
        · rw [hc]

/-- Witness for C4 at concrete tasks: a task with no channel (only the log
line, no publication) and a task assigned channel 3 (publication on
channel 3 with the task's id 9 overwriting the id 8 its execute result
carried). -/
theorem worker_publishes_own_task_id_witness :
    (Task.GetRespChan ⟨9, false, none, ⟨8, 200, "ok", []⟩⟩ = none →
      thread.runStep ⟨9, false, none, ⟨8, 200, "ok", []⟩⟩
        = ([noRespChanLogMsg (Task.GetId ⟨9, false, none, ⟨8, 200, "ok", []⟩⟩)], none)) ∧
    (Task.GetRespChan ⟨9, false, some 3, ⟨8, 200, "ok", []⟩⟩ = some 3 →
      thread.runStep ⟨9, false, some 3, ⟨8, 200, "ok", []⟩⟩
        = ([], some (3, { Task.Execute ⟨9, false, some 3, ⟨8, 200, "ok", []⟩⟩ with
            TaskId := Task.GetId ⟨9, false, some 3, ⟨8, 200, "ok", []⟩⟩ }))) :=
  ⟨(worker_publishes_own_task_id ⟨9, false, none, ⟨8, 200, "ok", []⟩⟩).1,
   fun h => (worker_publishes_own_task_id ⟨9, false, some 3, ⟨8, 200, "ok", []⟩⟩).2.1 3 h⟩

/-- C7: `CondVar.Broadcast r` fails with "earlier broadcast not complete"
exactly when receipts from an earlier broadcast are still outstanding
(`howManyLeft > 0`) at the call, leaving the state unchanged; otherwise it
returns no error and sets the pending-receipt count to `r`.  `Signal()` is
definitionally `Broadcast(1)`. -/
theorem condvar_broadcast_spec (cv : CondVar) (r : Int) :
    (0 < cv.howManyLeft → cv.Broadcast r = (some errMsgBdIncomplete, cv)) ∧
    (cv.howManyLeft ≤ 0 → cv.Broadcast r = (none, { cv with howManyLeft := r })) ∧
    cv.Signal = cv.Broadcast 1 := by
  refine ⟨fun h => ?_, fun h => ?_, rfl⟩
  · simp [CondVar.Broadcast, h]
  · simp [CondVar.Broadcast, not_lt.mpr h]

/-- Witness for C7: a CondVar with 2 outstanding receipts refuses a new
broadcast; a fresh CondVar accepts `Broadcast 5` and records 5 pending
receipts. -/
theorem condvar_broadcast_spec_witness :
    CondVar.Broadcast ⟨10, 100, 2⟩ 1 = (some errMsgBdIncomplete, ⟨10, 100, 2⟩) ∧
    CondVar.Broadcast ⟨10, 100, 0⟩ 5 = (none, ⟨10, 100, 5⟩) :=
  ⟨(condvar_broadcast_spec ⟨10, 100, 2⟩ 1).1 (by norm_num),
   (condvar_broadcast_spec ⟨10, 100, 0⟩ 5).2.1 (by norm_num)⟩

/-- C9 (refuted): the helper spawned by `Broadcast` is claimed to exit
within `durationLimit` when no waiter arrives.  The Go guard compares
readings of `time.Now().Nanosecond()` — the offset within the current
second, always below 10^9.  If the broadcast starts at offset
999999900 ns with `durationLimit = 100` µs, the cut-off
`start + durationLimit*1000 = 1000099900` exceeds every possible reading,
so with the receipt outstanding (`howManyLeft = 1`, and no waiter ever
decrements it) the guard holds at every subsequent reading: the helper
never exits, no matter how long the reading sequence. -/
theorem broadcast_helper_never_exits (reads : List Nat)
    (h : ∀ now ∈ reads, now < nanosPerSecond) :
    broadcastHelperExits 1 999999900 100 reads = false := by
  induction reads with
  | nil => rfl
  | cons a rest ih =>
      have ha : a < 1000000000 := h a (List.mem_cons_self a rest)
      have hrest : ∀ now ∈ rest, now < nanosPerSecond :=
        fun now hn => h now (List.mem_cons_of_mem a hn)
      have hg : broadcastLoopGuard 1 999999900 100 a = true := by
        simp only [broadcastLoopGuard, Bool.and_eq_true, decide_eq_true_eq]
        exact ⟨by norm_num, by omega⟩
      have ih2 := ih hrest
      simp only [broadcastHelperExits, List.any_cons] at ih2 ⊢
      rw [hg]
      simpa using ih2

/-- Witness for C9 at a concrete reading sequence spanning the wrap. -/
theorem broadcast_helper_never_exits_witness :
    (∀ now ∈ [999999950, 0, 500000000, 999999999], now < nanosPerSecond) ∧
    broadcastHelperExits 1 999999900 100 [999999950, 0, 500000000, 999999999] = false :=
  ⟨by decide, broadcast_helper_never_exits [999999950, 0, 500000000, 999999999] (by decide)⟩

/-- C10: from a fresh `TaskStats`, any sequence of `taskSubmitted` and
`taskDone` calls keeps `TotalTasksSubmitted` equal to
`BlockingTasksSubmitted + AsyncTasksSubmitted`; a `taskSubmitted`
increments total, in-execution and exactly the counter matching the
blocking flag; a `taskDone` decrements in-execution and leaves the three
submission counters unchanged. -/
theorem taskstats_counters_spec :
    (∀ ops : List StatsOp,
      (newTaskStats.runOps ops).TotalTasksSubmitted
        = (newTaskStats.runOps ops).BlockingTasksSubmitted
          + (newTaskStats.runOps ops).AsyncTasksSubmitted) ∧
    (∀ (ts : TaskStats) (b : Bool),
      (ts.taskSubmitted b).TotalTasksSubmitted = ts.TotalTasksSubmitted + 1 ∧
      (ts.taskSubmitted b).TasksInExecution = ts.TasksInExecution + 1 ∧
      (ts.taskSubmitted b).BlockingTasksSubmitted
        = ts.BlockingTasksSubmitted + (if b then 1 else 0) ∧
      (ts.taskSubmitted b).AsyncTasksSubmitted
        = ts.AsyncTasksSubmitted + (if b then 0 else 1)) ∧
    (∀ (ts : TaskStats) (b : Bool),
      (ts.taskDone b).TasksInExecution = ts.TasksInExecution - 1 ∧
      (ts.taskDone b).TotalTasksSubmitted = ts.TotalTasksSubmitted ∧
      (ts.taskDone b).BlockingTasksSubmitted = ts.BlockingTasksSubmitted ∧
      (ts.taskDone b).AsyncTasksSubmitted = ts.AsyncTasksSubmitted) := by
  refine ⟨?_, ?_, ?_⟩
  · have key : ∀ (ops : List StatsOp) (ts : TaskStats),
        ts.TotalTasksSubmitted = ts.BlockingTasksSubmitted + ts.AsyncTasksSubmitted →
        (ts.runOps ops).TotalTasksSubmitted
          = (ts.runOps ops).BlockingTasksSubmitted + (ts.runOps ops).AsyncTasksSubmitted := by
      intro ops
      induction ops with
      | nil => intro ts h; simpa [TaskStats.runOps] using h
      | cons op rest ih =>
          intro ts h
          have hstep : (TaskStats.runOps ts (op :: rest))
              = TaskStats.runOps (match op with
                | .submitted b => ts.taskSubmitted b
                | .done b => ts.taskDone b) rest := by
            simp [TaskStats.runOps]
          rw [hstep]
          apply ih
          cases op with
          | submitted b =>
              cases b <;> simp [TaskStats.taskSubmitted] <;> omega
          | done b => exact h
    exact fun ops => key ops newTaskStats (by simp [newTaskStats])
  · intro ts b
    cases b <;> simp [TaskStats.taskSubmitted]
  · intro ts b
    simp [TaskStats.taskDone]

/-- C5: `thread.Submit` fails exactly when the worker is not running
(before `Start` or after `Stop`; the "not started" error) or when
`waitForAvailability` is off and the intake queue already holds
`queueCapacity` tasks (the "queue full" error); every failure leaves the
worker — in particular its intake queue — unchanged, and every success
appends the task to the intake queue.  The hypotheses record channel
facts: the buffered queue never exceeds its capacity, and a running
worker has an allocated queue channel (`Start` allocates it before
setting the flag). -/
theorem thread_submit_spec (t : thread) (tsk : Task)
    (hcap : t.HowManyInQueue ≤ t.queueCapacity)
    (hch : t.continueRun = true → t.taskQueue.isSome) :
    ((t.Submit tsk).1.isSome ↔
      (t.continueRun = false ∨
        (t.waitForAvailability = false ∧ t.HowManyInQueue = t.queueCapacity))) ∧
    (t.continueRun = false → t.Submit tsk = (some errNotStarted, t)) ∧
    (t.continueRun = true → t.waitForAvailability = false →
      t.HowManyInQueue = t.queueCapacity → t.Submit tsk = (some errQueueFull, t)) ∧
    ((t.Submit tsk).1 = none →
      ∃ ch : GoChan Task, t.taskQueue = some ch ∧
        (t.Submit tsk).2
          = { t with taskQueue := some { ch with buf := ch.buf ++ [tsk] } }) := by
  by_cases hr : t.continueRun = true
  · obtain ⟨ch, hsome⟩ := Option.isSome_iff_exists.mp (hch hr)
    by_cases hw : t.waitForAvailability = true
    · refine ⟨?_, ?_, ?_, ?_⟩
      · simp [thread.Submit, hr, hw]
      · intro hcontra; rw [hr] at hcontra; exact absurd hcontra (by simp)
      · intro _ hcontra; rw [hw] at hcontra; exact absurd hcontra (by simp)
      · intro _
        exact ⟨ch, hsome, by simp [thread.Submit, thread.enqueue, hr, hw, hsome]⟩
    · have hwf : t.waitForAvailability = false := by simpa using hw
      by_cases hlt : t.HowManyInQueue < t.queueCapacity
      · refine ⟨?_, ?_, ?_, ?_⟩
        · simp [thread.Submit, hr, hwf, hlt]
          omega
        · intro hcontra; rw [hr] at hcontra; exact absurd hcontra (by simp)
        · intro _ _ heq; omega
        · intro _
          exact ⟨ch, hsome, by simp [thread.Submit, thread.enqueue, hr, hwf, hlt, hsome]⟩
      · have heq : t.HowManyInQueue = t.queueCapacity := by omega
        refine ⟨?_, ?_, ?_, ?_⟩
        · simp [thread.Submit, hr, hwf, hlt, heq]
        · intro hcontra; rw [hr] at hcontra; exact absurd hcontra (by simp)
        · intro _ _ _; simp [thread.Submit, hr, hwf, hlt]
        · intro hnone; exact absurd hnone (by simp [thread.Submit, hr, hwf, hlt])
  · have hrf : t.continueRun = false := by simpa using hr
    refine ⟨?_, ?_, ?_, ?_⟩
    · simp [thread.Submit, hrf]
    · intro _; simp [thread.Submit, hrf]
    · intro hcontra; rw [hrf] at hcontra; exact absurd hcontra (by simp)
    · intro hnone; exact absurd hnone (by simp [thread.Submit, hrf])

/-- Witness for C5: a freshly constructed (unstarted) worker refuses the
task with the not-started error and keeps its state; a running worker
with a full queue and no wait refuses with the queue-full error; a
running worker with room appends the task. -/
theorem thread_submit_spec_witness :
    ((NewExecutor ⟨2, false⟩).HowManyInQueue ≤ (NewExecutor ⟨2, false⟩).queueCapacity) ∧
    ((NewExecutor ⟨2, false⟩).continueRun = true → (NewExecutor ⟨2, false⟩).taskQueue.isSome) ∧
    (NewExecutor ⟨2, false⟩).Submit blockingTask42
      = (some errNotStarted, NewExecutor ⟨2, false⟩) :=
  ⟨by decide, by decide,
   (thread_submit_spec (NewExecutor ⟨2, false⟩) blockingTask42
      (by decide) (by decide)).2.1 rfl⟩

/-- C6: `Dispatcher.Submit` returns "invalid task" on a nil task and
"cannot submit, no channel available" when nothing is advertised
(`firstAvailable = −1`) and `waitForChanAvail` is off; both rejections
return the dispatcher state unchanged — counters, waiter registry and
every `waitingOn` counter included. -/
theorem dispatcher_submit_rejections (disp : Dispatcher) (tsk : Task)
    (hfa : disp.respChans.firstAvailable = -1)
    (hw : disp.respChans.waitForChannel = false) :
    disp.Submit none = .ret (some errInvalidTask) none disp ∧
    disp.Submit (some tsk) = .ret (some errNoChanAvailable) none disp := by
  constructor
  · rfl
  · simp [Dispatcher.Submit, Dispatcher.submitTask,
      responseChannels.nextAvailChanIndex, hfa, hw]

/-- Witness for C6 at a concrete exhausted dispatcher (one conduit of
capacity 1, already reserved, so nothing is advertised). -/
theorem dispatcher_submit_rejections_witness :
    (((NewDispatcher ⟨1, 1, false⟩ ⟨[], []⟩).respChans.step .reserve).firstAvailable = -1) ∧
    Dispatcher.Submit
      { NewDispatcher ⟨1, 1, false⟩ ⟨[], []⟩ with
        respChans := (NewDispatcher ⟨1, 1, false⟩ ⟨[], []⟩).respChans.step .reserve }
      (some blockingTask42)
      = .ret (some errNoChanAvailable) none
          { NewDispatcher ⟨1, 1, false⟩ ⟨[], []⟩ with
            respChans := (NewDispatcher ⟨1, 1, false⟩ ⟨[], []⟩).respChans.step .reserve } :=
  ⟨by decide,
   (dispatcher_submit_rejections
      { NewDispatcher ⟨1, 1, false⟩ ⟨[], []⟩ with
        respChans := (NewDispatcher ⟨1, 1, false⟩ ⟨[], []⟩).respChans.step .reserve }
      blockingTask42 (by decide) (by decide)).2⟩

/-- C8 (refuted): stop-after-stop is claimed to be a no-op or a clear
error, never a crash.  Both `thread.Stop` and `responseChannels.stop`
unconditionally `close` their channel(s); the second call closes an
already-closed channel, which is a Go runtime panic (a crash — these
methods have no error return at all).  Evaluated on a started worker with
a one-slot queue and on a one-conduit set. -/
theorem double_stop_panics_counterexample :
    ((NewExecutor ⟨1, false⟩).Start.Stop.bind thread.Stop)
      = .error panicCloseOfClosed ∧
    ((newRC 1 1 false).stop.bind responseChannels.stop)
      = .error panicCloseOfClosed := by
  constructor <;> rfl

/-- C8 (amended): for a worker whose intake channel is allocated and open,
and a conduit set with at least one not-yet-closed conduit, the first stop
succeeds and a second stop panics with Go's close-of-closed-channel
runtime panic — double stop is a crash, not a no-op or error return. -/
theorem double_stop_panics (t : thread) (ch : GoChan Task)
    (hq : t.taskQueue = some ch) (ho : ch.closed = false)
    (rc : responseChannels) (hcc : 1 ≤ rc.channelCount)
    (hcl : rc.chansClosed = false) :
    (∃ t1, t.Stop = .ok t1 ∧ t1.Stop = .error panicCloseOfClosed) ∧
    (∃ rc1, rc.stop = .ok rc1 ∧ rc1.stop = .error panicCloseOfClosed) := by
  have hcc0 : rc.channelCount ≠ 0 := by omega
  constructor
  · refine ⟨{ t with continueRun := false, taskQueue := some { ch with closed := true } }, ?_, ?_⟩
    · simp [thread.Stop, goClose, hq, ho, Except.map]
    · simp [thread.Stop, goClose, Except.map]
  · refine ⟨{ rc with continueRun := false, chansClosed := true }, ?_, ?_⟩
    · simp [responseChannels.stop, hcc0, hcl]
    · simp [responseChannels.stop, hcc0]

/-- Witness for C8's amended claim at the concrete started worker and the
one-conduit set. -/
theorem double_stop_panics_witness :
    ((NewExecutor ⟨1, false⟩).Start.taskQueue
        = some (⟨[], false⟩ : GoChan Task)) ∧
    (1 ≤ (newRC 1 1 false).channelCount) ∧
    ((∃ t1, (NewExecutor ⟨1, false⟩).Start.Stop = .ok t1 ∧
        t1.Stop = .error panicCloseOfClosed) ∧
     (∃ rc1, (newRC 1 1 false).stop = .ok rc1 ∧
        rc1.stop = .error panicCloseOfClosed)) :=
  ⟨by decide, by decide,
   double_stop_panics (NewExecutor ⟨1, false⟩).Start ⟨[], false⟩
     (by decide) rfl (newRC 1 1 false) (by decide) rfl⟩

/-! ### C3: concrete scenario — pool submission fails, waiter left behind -/

/-- Pool with a single blocking executor that was never started, so its
`Submit` fails with the not-started error. -/
def c3pool : ExecutorPool := NewExecutorPool ⟨0, 1⟩ ⟨1, false⟩

/-- The blocking task (id 7) whose pool submission will fail. -/
def c3task : Task :=
  { id := 7, blocking := true, respChan := none, executeResp := Response.zero }

/-- Dispatcher over one conduit of capacity 1, no waiting. -/
def c3disp : Dispatcher := NewDispatcher ⟨1, 1, false⟩ c3pool

/-- The waiter record created for task 7 before the pool submission. -/
def c3record : waitingTask :=
  { cond := NewCondVar 10 100, responseReceived := false,
    taskResponse := Response.zero, blocking := true }

/-- The dispatcher state after the failed submission of task 7. -/
def c3dispAfter : Dispatcher :=
  { execPool := c3pool,
    respChans := { newRC 1 1 false with
      firstAvailable := -1, tasksWaitingOnChn := [1] },
    chanCount := 1,
    waitForChan := false,
    waitingTasks := [(7, c3record)],
    JobStats := newTaskStats }

/-- C3 (refuted): when the pool's Submit fails, `submitTask` writes the
synthetic failed-to-submit response only into its local record — a copy
invisible through the registry — sets no `responseReceived` flag and
issues no broadcast on the record's primitive.  Evaluated at the concrete
failing input: the pool error is indeed returned to the caller, but the
registry still holds task 7's record with `responseReceived = false` and
the zero response (not the synthetic one), the record's CondVar has no
pending receipt that could wake the housekeeper (`housekeeperGuard` is
false and stays unreachable), the reserved conduit slot is still held
(`waitingOn = [1]`, nothing advertised), and no teardown has occurred. -/
theorem dispatcher_failed_submit_no_teardown :
    c3disp.Submit (some c3task) = .ret (some errNotStarted) none c3dispAfter ∧
    mapLookup c3dispAfter.waitingTasks 7 = some c3record ∧
    housekeeperGuard c3record = false ∧
    c3record.cond.howManyLeft = 0 ∧
    c3record.taskResponse ≠ FailedToSubmitResponse 7 ∧
    c3dispAfter.respChans.tasksWaitingOnChn = [1] ∧
    c3dispAfter.respChans.firstAvailable = -1 ∧
    c3dispAfter.JobStats = newTaskStats := by
  refine ⟨by decide, by decide, rfl, rfl, by decide, rfl, rfl, rfl⟩

/-! ### C1: the firstAvailable invariant of the conduit arbiter -/

/-- Validity of a trace operation: a release names an existing conduit
(the housekeeper only releases the index it reserved; an out-of-range
index would panic in Go on the array access). -/
def RCOp.inRange (cc : Nat) : RCOp → Bool
  | .reserve => true
  | .markAvail i => i < cc

/-- State invariant actually maintained by the arbiter: the counter array
keeps its length, every counter stays nonnegative, and `firstAvailable`
stays in `[−1, channelCount)`. -/
def RCInv (cc : Nat) (rc : responseChannels) : Prop :=
  rc.channelCount = cc ∧
  rc.tasksWaitingOnChn.length = cc ∧
  -1 ≤ rc.firstAvailable ∧
  rc.firstAvailable < (cc : Int) ∧
  ∀ x ∈ rc.tasksWaitingOnChn, 0 ≤ x

theorem newRC_inv (cc : Nat) (cp : Int) (wfc : Bool) (hcc : 0 < cc) :
    RCInv cc (newRC cc cp wfc) := by
  refine ⟨rfl, by simp [newRC], by norm_num [newRC], ?_, ?_⟩
  · simp only [newRC]
    exact_mod_cast hcc
  · intro x hx
    simp only [newRC, List.mem_replicate] at hx
    omega

theorem nextIdx_lt {cc i : Nat} (hcc : 0 < cc) (hi : i < cc) :
    responseChannels.nextIdx cc i < cc := by
  simp only [responseChannels.nextIdx]
  split <;> omega

theorem pickScan_minIndex_lt (w : List Int) (cap : Int) (cc avl : Nat)
    (hcc : 0 < cc) :
    ∀ (fuel i : Nat) (mn : Int) (minIndex : Nat), i < cc → minIndex < cc →
      (pickScan w cap cc avl i mn minIndex fuel).2.2 < cc := by
  intro fuel
  induction fuel with
  | zero => intro i mn minIndex _ hm; simpa [pickScan] using hm
  | succ n ih =>
      intro i mn minIndex hi hm
      simp only [pickScan]
      split
      · simpa using hm
      · split
        · simpa using hm
        · split
          · exact ih _ _ _ (nextIdx_lt hcc hi) hi
          · exact ih _ _ _ (nextIdx_lt hcc hi) hm

theorem getD_nonneg (l : List Int) (h : ∀ x ∈ l, 0 ≤ x) (n : Nat) :
    0 ≤ l.getD n 0 := by
  rcases lt_or_ge n l.length with hlt | hge
  · rw [List.getD_eq_getElem l 0 hlt]
    exact h _ (List.getElem_mem hlt)
  · rw [List.getD_eq_default l 0 hge]

theorem pick_inv (cc : Nat) (rc : responseChannels) (avl : Nat)
    (h : RCInv cc rc) (hcc : 0 < cc) (havl : avl < cc) :
    RCInv cc (rc.pickFromAvailChannels avl) := by
  obtain ⟨h1, h2, h3, h4, h5⟩ := h
  have hnext : responseChannels.nextIdx cc avl < cc := nextIdx_lt hcc havl
  have hmin : (pickScan rc.tasksWaitingOnChn rc.chanCap rc.channelCount avl
      (responseChannels.nextIdx rc.channelCount avl)
      (rc.tasksWaitingOnChn.getD (responseChannels.nextIdx rc.channelCount avl) 0)
      (responseChannels.nextIdx rc.channelCount avl)
      rc.channelCount).2.2 < cc := by
    rw [h1]
    exact pickScan_minIndex_lt rc.tasksWaitingOnChn rc.chanCap cc avl hcc cc
      (responseChannels.nextIdx cc avl)
      (rc.tasksWaitingOnChn.getD (responseChannels.nextIdx cc avl) 0)
      (responseChannels.nextIdx cc avl) hnext hnext
  refine ⟨h1, ?_, ?_, ?_, ?_⟩
  · simpa [responseChannels.pickFromAvailChannels] using h2
  · simp only [responseChannels.pickFromAvailChannels]
    split <;> omega
  · simp only [responseChannels.pickFromAvailChannels]
    split
    · omega
    · exact_mod_cast hmin
  · intro x hx
    simp only [responseChannels.pickFromAvailChannels] at hx
    rcases List.mem_or_eq_of_mem_set hx with hmem | hval
    · exact h5 x hmem
    · subst hval
      have := getD_nonneg rc.tasksWaitingOnChn h5 avl
      omega

theorem markAvailable_inv (cc : Nat) (rc : responseChannels) (ai : Nat)
    (h : RCInv cc rc) (hai : ai < cc) :
    RCInv cc (rc.markAvailable ai) := by
  obtain ⟨h1, h2, h3, h4, h5⟩ := h
  refine ⟨h1, ?_, ?_, ?_, ?_⟩
  · simp only [responseChannels.markAvailable]
    split <;> simpa using h2
  · simp only [responseChannels.markAvailable]
    split <;> omega
  · simp only [responseChannels.markAvailable]
    split
    · exact_mod_cast hai
    · exact h4
  · intro x hx
    simp only [responseChannels.markAvailable] at hx
    split at hx
    · rcases List.mem_or_eq_of_mem_set hx with hmem | hval
      · exact h5 x hmem
      · subst hval; omega
    · exact h5 x hx

theorem step_inv (cc : Nat) (rc : responseChannels) (op : RCOp)
    (h : RCInv cc rc) (hcc : 0 < cc) (hop : RCOp.inRange cc op = true) :
    RCInv cc (rc.step op) := by
  cases op with
  | reserve =>
      obtain ⟨h1, h2, h3, h4, h5⟩ := h
      simp only [responseChannels.step]
      split
      · have htn : rc.firstAvailable.toNat < cc := by omega
        exact pick_inv cc rc _ ⟨h1, h2, h3, h4, h5⟩ hcc htn
      · exact ⟨h1, h2, h3, h4, h5⟩
  | markAvail i =>
      simp only [RCOp.inRange, decide_eq_true_eq] at hop
      exact markAvailable_inv cc rc i h hop

theorem run_inv (cc : Nat) (ops : List RCOp) (rc : responseChannels)
    (h : RCInv cc rc) (hcc : 0 < cc)
    (hops : ∀ op ∈ ops, RCOp.inRange cc op = true) :
    RCInv cc (rc.run ops) := by
  induction ops generalizing rc with
  | nil => simpa [responseChannels.run] using h
  | cons op rest ih =>
      have hstep : responseChannels.run rc (op :: rest)
          = responseChannels.run (rc.step op) rest := by
        simp [responseChannels.run]
      rw [hstep]
      exact ih (rc.step op)
        (step_inv cc rc op h hcc (hops op (List.mem_cons_self op rest)))
        fun o ho => hops o (List.mem_cons_of_mem op ho)

/-- C1 (refuted): I6 claims `firstAvailable = −1` iff every conduit is at
capacity, and that an advertised conduit has `waitingOn < C`.  Two
reserves on a fresh 2-conduit set of capacity 2 end with
`firstAvailable = −1` while `waitingOn = [1, 1]` (nothing at capacity):
the reserve scan excludes the conduit just reserved, so it can advertise
nothing while slots remain.  And a 9-operation trace on a 3-conduit set
of capacity 2 ends with `firstAvailable = 0` while `waitingOn[0] = 2 = C`:
on the `waitingOn = 0` exit the scan advertises its remembered
`minIndex`, whose counter was never checked against the capacity. -/
theorem conduit_i6_counterexample :
    (¬ ((((newRC 2 2 false).run [.reserve, .reserve]).firstAvailable = -1) ↔
        (∀ i < ((newRC 2 2 false).run [.reserve, .reserve]).channelCount,
          ((newRC 2 2 false).run [.reserve, .reserve]).tasksWaitingOnChn.getD i 0
            = ((newRC 2 2 false).run [.reserve, .reserve]).chanCap))) ∧
    (((newRC 3 2 false).run
        [.reserve, .reserve, .markAvail 1, .reserve, .reserve, .reserve,
         .markAvail 2, .markAvail 1, .reserve]).firstAvailable = 0 ∧
      ¬ (((newRC 3 2 false).run
        [.reserve, .reserve, .markAvail 1, .reserve, .reserve, .reserve,
         .markAvail 2, .markAvail 1, .reserve]).tasksWaitingOnChn.getD 0 0
          < ((newRC 3 2 false).run
        [.reserve, .reserve, .markAvail 1, .reserve, .reserve, .reserve,
         .markAvail 2, .markAvail 1, .reserve]).chanCap)) := by
  refine ⟨by decide, by decide, by decide⟩

/-- C1 (amended): what the arbiter does maintain, from the initial state,
over every sequence of reserve and (in-range) release operations:
`firstAvailable` stays in `[−1, channelCount)` — it is −1 or a valid
conduit index — and the counter array keeps its length with every
`waitingOn[i] ≥ 0`.  The capacity relationship of I6 is not maintained
(see the counterexample). -/
theorem conduit_firstAvailable_range (cc : Nat) (cp : Int) (wfc : Bool)
    (ops : List RCOp) (hcc : 0 < cc)
    (hops : ∀ op ∈ ops, RCOp.inRange cc op = true) :
    -1 ≤ ((newRC cc cp wfc).run ops).firstAvailable ∧
    ((newRC cc cp wfc).run ops).firstAvailable < (cc : Int) ∧
    ((newRC cc cp wfc).run ops).tasksWaitingOnChn.length = cc ∧
    ∀ x ∈ ((newRC cc cp wfc).run ops).tasksWaitingOnChn, 0 ≤ x := by
  obtain ⟨_, h2, h3, h4, h5⟩ :=
    run_inv cc ops (newRC cc cp wfc) (newRC_inv cc cp wfc hcc) hcc hops
  exact ⟨h3, h4, h2, h5⟩

/-- Witness for C1's amended claim on a concrete 2-conduit trace. -/
theorem conduit_firstAvailable_range_witness :
    (0 < 2 ∧ ∀ op ∈ [RCOp.reserve, RCOp.markAvail 0], RCOp.inRange 2 op = true) ∧
    (-1 ≤ ((newRC 2 2 false).run [.reserve, .markAvail 0]).firstAvailable ∧
     ((newRC 2 2 false).run [.reserve, .markAvail 0]).firstAvailable < (2 : Int) ∧
     ((newRC 2 2 false).run [.reserve, .markAvail 0]).tasksWaitingOnChn.length = 2 ∧
     ∀ x ∈ ((newRC 2 2 false).run [.reserve, .markAvail 0]).tasksWaitingOnChn, 0 ≤ x) :=
  ⟨⟨by decide, by decide⟩,
   conduit_firstAvailable_range 2 2 false [.reserve, .markAvail 0]
     (by decide) (by decide)⟩

end Goshared
